import Mathlib

/-!
Verification development for the Monkey bytecode compiler / virtual machine
(Go sources: `code`, `object`, `ast`, `compiler`, `parser`, `vm` packages,
newest version of each file).

Shallow embedding conventions:
* Go `byte` values are `Nat` with an explicit `% 256` where the Go type system
  truncates; `int64` values are `Int` with an explicit wrap at 2^64 where Go
  arithmetic can overflow.
* Go pointers are modelled by allocation identifiers (`ref : Nat`): Go `==` on
  two heap objects is equality of their allocation ids.
* A Go function returning `error` is modelled with an `Outcome` value whose
  `err` constructor is a returned error and whose `panicked` constructor is a
  Go runtime (or explicit) panic, i.e. a host crash that is not returned to
  the caller.
-/

namespace Monkey

/-! ## code package: opcodes (from the `const ( ... iota ... )` block) -/

def OpConstant : Nat := 0
def OpAdd : Nat := 1
def OpPop : Nat := 2
def OpSub : Nat := 3
def OpMul : Nat := 4
def OpDiv : Nat := 5
def OpTrue : Nat := 6
def OpFalse : Nat := 7
def OpEqual : Nat := 8
def OpNotEqual : Nat := 9
def OpGreaterThan : Nat := 10
def OpMinus : Nat := 11
def OpBang : Nat := 12
def OpJumpNotTruthy : Nat := 13
def OpJump : Nat := 14
def OpNull : Nat := 15
def OpGetGlobal : Nat := 16
def OpSetGlobal : Nat := 17
def OpArray : Nat := 18
def OpHash : Nat := 19
def OpIndex : Nat := 20
def OpCall : Nat := 21
def OpReturnValue : Nat := 22
def OpReturn : Nat := 23
def OpGetLocal : Nat := 24
def OpSetLocal : Nat := 25

/-- `code.Definition`: opcode name and the byte width of each operand. -/
structure Definition where
  Name : String
  OperandWidths : List Nat
deriving DecidableEq, Repr

/-- The `definitions` map of the `code` package, keyed by opcode byte. -/
def definitions : List (Nat × Definition) :=
  [ (OpConstant, ⟨"OpConstant", [2]⟩),
    (OpAdd, ⟨"OpAdd", []⟩),
    (OpSub, ⟨"OpSub", []⟩),
    (OpMul, ⟨"OpMul", []⟩),
    (OpDiv, ⟨"OpDiv", []⟩),
    (OpPop, ⟨"OpPop", []⟩),
    (OpTrue, ⟨"OpTrue", []⟩),
    (OpFalse, ⟨"OpFalse", []⟩),
    (OpEqual, ⟨"OpEqual", []⟩),
    (OpNotEqual, ⟨"OpNotEqual", []⟩),
    (OpGreaterThan, ⟨"OpGreaterThan", []⟩),
    (OpMinus, ⟨"OpMinus", []⟩),
    (OpBang, ⟨"OpBang", []⟩),
    (OpJumpNotTruthy, ⟨"OpJumpNotTruthy", [2]⟩),
    (OpJump, ⟨"OpJump", [2]⟩),
    (OpNull, ⟨"OpNull", []⟩),
    (OpGetGlobal, ⟨"OpGetGlobal", [2]⟩),
    (OpSetGlobal, ⟨"OpSetGlobal", [2]⟩),
    (OpGetLocal, ⟨"OpGetLocal", [1]⟩),
    (OpSetLocal, ⟨"OpSetLocal", [1]⟩),
    (OpArray, ⟨"OpArray", [2]⟩),
    (OpHash, ⟨"OpHash", [2]⟩),
    (OpIndex, ⟨"OpIndex", []⟩),
    (OpCall, ⟨"OpCall", []⟩),
    (OpReturnValue, ⟨"OpReturnValue", []⟩),
    (OpReturn, ⟨"OpReturn", []⟩) ]

/-- `code.Lookup`: map access; `none` models the `opcode %d undefined` error. -/
def Lookup (op : Nat) : Option Definition :=
  (definitions.find? (fun p => p.1 = op)).map Prod.snd

/-- One write of `Make`'s operand-encoding loop body: big-endian `PutUint16`
for width 2 (`byte(v >> 8)` then `byte(v)` of `uint16(o)`), a single
`byte(o)` for width 1, and no write for any other width. -/
def writeOperand (ins : List Nat) (offset width o : Nat) : List Nat :=
  if width = 2 then
    ((ins.set offset (o % 65536 / 256)).set (offset + 1) (o % 256))
  else if width = 1 then
    ins.set offset (o % 256)
  else
    ins

/-- `Make`'s `for i, o := range operands` loop: each operand is written at the
running `offset`, which then advances by the operand's declared width.
(When there are more operands than declared widths Go would panic indexing
`def.OperandWidths[i]`; that case is never exercised below.) -/
def writeOperands (ins : List Nat) : List Nat → List Nat → Nat → List Nat
  | [], _, _ => ins
  | _ :: _, [], _ => ins
  | o :: os, w :: ws, offset => writeOperands (writeOperand ins offset w o) os ws (offset + w)

/-- `code.Make`: opcode byte followed by the big-endian encoded operands, in a
buffer of length `1 + sum of operand widths` that starts out all zero.
An opcode missing from `definitions` yields the empty instruction. -/
def Make (op : Nat) (operands : List Nat) : List Nat :=
  match Lookup op with
  | none => []
  | some d =>
      let instructionLen := 1 + d.OperandWidths.sum
      let instruction := (List.replicate instructionLen 0).set 0 op
      writeOperands instruction operands d.OperandWidths 1

/-- `code.ReadUint16` (`binary.BigEndian.Uint16`). The `% 256` makes the Go
`byte` type explicit; on fewer than two bytes Go panics, modelled as 0 here
(never reached by well-formed instruction streams). -/
def ReadUint16 : List Nat → Nat
  | hi :: lo :: _ => hi % 256 * 256 + lo % 256
  | _ => 0

/-- `code.ReadUint8`. -/
def ReadUint8 : List Nat → Nat
  | b :: _ => b % 256
  | _ => 0

/-- The loop of `code.ReadOperands`: one decoded operand per declared width
(0 for a width other than 1 or 2), with the running offset advancing by each
width; returns the operands and the final offset. -/
def readOperandsLoop (ins : List Nat) : List Nat → Nat → List Nat × Nat
  | [], offset => ([], offset)
  | w :: ws, offset =>
      let o := if w = 2 then ReadUint16 (ins.drop offset)
               else if w = 1 then ReadUint8 (ins.drop offset)
               else 0
      let rest := readOperandsLoop ins ws (offset + w)
      (o :: rest.1, rest.2)

/-- `code.ReadOperands`. -/
def ReadOperands (d : Definition) (ins : List Nat) : List Nat × Nat :=
  readOperandsLoop ins d.OperandWidths 0

/-- The operand tuple `os` fits the declared widths `ws`: same arity, and each
operand fits in its width's number of bytes. -/
def operandsFit : List Nat → List Nat → Bool
  | [], [] => true
  | w :: ws, o :: os => decide (o < 256 ^ w) && operandsFit ws os
  | _, _ => false

/-! ## object package (newest version of `object.go`)

Go objects live behind pointers; `ref` is the allocation id, so Go `==` on two
object interface values of the same dynamic type is equality of `ref`.
The `object.CompiledFunction` declaration itself is not under `src/` (only its
users are); its single field is modelled from the spec: a `CompiledFunction`
carries just its instruction bytes. -/

def INTEGER_OBJ : String := "INTEGER"
def BOOLEAN_OBJ : String := "BOOLEAN"
def NULL_OBJ : String := "NULL"
def STRING_OBJ : String := "STRING"
def ARRAY_OBJ : String := "ARRAY"
def HASH_OBJ : String := "HASH"
/-- Modelled from the spec: the type tag of the missing `CompiledFunction`
object declaration. -/
def COMPILED_FUNCTION_OBJ : String := "COMPILED_FUNCTION"

/-- `object.HashKey`: a type tag plus a 64-bit hash value. -/
structure HashKey where
  Type' : String
  Value : Nat
deriving DecidableEq, Repr

/-- The VM-pipeline value model. `boolean` and `null` stand for the interned
singletons `vm.True` / `vm.False` / `vm.Null`, the only Boolean/Null objects
the compile-and-run pipeline ever creates, so Go pointer equality on them is
equality of the payload. -/
inductive Obj where
  | integer (ref : Nat) (value : Int)
  | boolean (value : Bool)
  | null
  | strObj (ref : Nat) (value : String)
  | array (ref : Nat) (elements : List (Option Obj))
  | hash (ref : Nat) (pairs : List (HashKey × Option Obj × Option Obj))
  | compiledFunction (ref : Nat) (instructions : List Nat)

/-- `Object.Type()`. -/
def Obj.typeTag : Obj → String
  | .integer _ _ => INTEGER_OBJ
  | .boolean _ => BOOLEAN_OBJ
  | .null => NULL_OBJ
  | .strObj _ _ => STRING_OBJ
  | .array _ _ => ARRAY_OBJ
  | .hash _ _ => HASH_OBJ
  | .compiledFunction _ _ => COMPILED_FUNCTION_OBJ

/-- Go `==` on two object interface values: same dynamic type and same
pointer (same allocation id); for the interned singletons, same payload. -/
def identEq : Obj → Obj → Bool
  | .integer r1 _, .integer r2 _ => r1 == r2
  | .boolean b1, .boolean b2 => b1 == b2
  | .null, .null => true
  | .strObj r1 _, .strObj r2 _ => r1 == r2
  | .array r1 _, .array r2 _ => r1 == r2
  | .hash r1 _, .hash r2 _ => r1 == r2
  | .compiledFunction r1 _, .compiledFunction r2 _ => r1 == r2
  | _, _ => false

/-- FNV-1a offset basis (`hash/fnv`, 64 bit). -/
def fnvOffsetBasis : Nat := 14695981039346656037
/-- FNV-1a prime (`hash/fnv`, 64 bit). -/
def fnvPrime : Nat := 1099511628211

/-- 64-bit FNV-1a over a byte sequence, with the uint64 wrap explicit. -/
def fnv64a (bytes : List Nat) : Nat :=
  bytes.foldl (fun h b => (h ^^^ b % 256) * fnvPrime % 2 ^ 64) fnvOffsetBasis

/-- The `Hashable` interface: `HashKey()` for Boolean (0/1), Integer (the
uint64 bit pattern of the int64 value) and String (FNV-1a of its bytes);
`none` for every other object type. -/
def hashKeyOf : Obj → Option HashKey
  | .boolean b => some ⟨BOOLEAN_OBJ, if b then 1 else 0⟩
  | .integer _ v => some ⟨INTEGER_OBJ, (v % 2 ^ 64).toNat⟩
  | .strObj _ s => some ⟨STRING_OBJ, fnv64a (s.toUTF8.toList.map UInt8.toNat)⟩
  | _ => none

/-! ## ast package (`ast.go` plus the array/hash/index nodes whose
declarations are not under `src/`, modelled from the spec §3: `ArrayLit(elems)`,
`HashLit(pairs)`, `Index(target, index)`).

Nodes that print their own token (`IntegerLiteral`, `Boolean`,
`StringLiteral`) carry the token literal the parser stored. A `HashLiteral`'s
Go field is `map[Expression]Expression`; the map is embedded as its list of
key/value pairs *in iteration order*, so two permutations of the list are two
possible iteration orders of the same map. -/

mutual
inductive Expr where
  | Identifier (value : String)
  | IntegerLiteral (tokenLit : String) (value : Int)
  | StringLiteral (tokenLit : String) (value : String)
  | Boolean (tokenLit : String) (value : Bool)
  | PrefixExpression (operator : String) (right : Expr)
  | InfixExpression (operator : String) (left : Expr) (right : Expr)
  | IfExpression (condition : Expr) (consequence : Block) (alternative : Option Block)
  | FunctionLiteral (parameters : List String) (body : Block)
  | CallExpression (function : Expr) (arguments : List Expr)
  | ArrayLiteral (elements : List Expr)
  | HashLiteral (pairs : List (Expr × Expr))
  | IndexExpression (left : Expr) (index : Expr)

inductive Block where
  | mk (statements : List Stmt)

inductive Stmt where
  | LetStatement (name : String) (value : Expr)
  | ReturnStatement (returnValue : Expr)
  | ExpressionStatement (expression : Expr)
end

mutual
/-- `Expression.String()`. For the array/hash/index nodes (declarations not
under `src/`) the upstream textbook shapes are used; no claim depends on
them. A brace is written with its escape to keep it literal. -/
def exprString : Expr → String
  | .Identifier v => v
  | .IntegerLiteral lit _ => lit
  | .StringLiteral lit _ => lit
  | .Boolean lit _ => lit
  | .PrefixExpression op r => "(" ++ op ++ exprString r ++ ")"
  | .InfixExpression op l r => "(" ++ exprString l ++ " " ++ op ++ " " ++ exprString r ++ ")"
  | .IfExpression c cons alt =>
      "if" ++ exprString c ++ " " ++ blockString cons ++
        (match alt with
         | some a => "else " ++ blockString a
         | none => "")
  | .FunctionLiteral params body =>
      "fn" ++ "(" ++ String.intercalate ", " params ++ ") " ++ blockString body
  | .CallExpression f args =>
      exprString f ++ "(" ++ String.intercalate ", " (exprStringList args) ++ ")"
  | .ArrayLiteral elems => "[" ++ String.intercalate ", " (exprStringList elems) ++ "]"
  | .HashLiteral pairs => "\x7b" ++ String.intercalate ", " (pairStringList pairs) ++ "\x7d"
  | .IndexExpression l i => "(" ++ exprString l ++ "[" ++ exprString i ++ "])"

def exprStringList : List Expr → List String
  | [] => []
  | e :: es => exprString e :: exprStringList es

def pairStringList : List (Expr × Expr) → List String
  | [] => []
  | (k, v) :: ps => (exprString k ++ ":" ++ exprString v) :: pairStringList ps

/-- `BlockStatement.String()`. -/
def blockString : Block → String
  | .mk stmts => String.join (stmtStringList stmts)

/-- `Statement.String()`. -/
def stmtString : Stmt → String
  | .LetStatement name v => "let " ++ name ++ " = " ++ exprString v ++ ";"
  | .ReturnStatement v => "return " ++ exprString v ++ ";"
  | .ExpressionStatement e => exprString e

def stmtStringList : List Stmt → List String
  | [] => []
  | s :: ss => stmtString s :: stmtStringList ss
end

/-! ## Symbol table

Modelled from the spec: the symbol-table source file is not under `src/`
(only its callers in the compiler are). Per §4.3 and the call sites:
`Define(name)` records the name in the current layer at the next available
index, with scope `Local` if the table has a parent and `Global` otherwise;
`Resolve(name)` looks in the current layer and recurses into the parent on a
miss; the compiler enters/leaves one enclosed layer per function literal. -/

def GlobalScope : String := "GLOBAL"
def LocalScope : String := "LOCAL"

structure Symbol where
  Name : String
  Scope : String
  Index : Nat
deriving DecidableEq, Repr

inductive SymbolTable where
  | mk (store : List (String × Symbol)) (numDefinitions : Nat) (Outer : Option SymbolTable)

def SymbolTable.Outer : SymbolTable → Option SymbolTable
  | .mk _ _ outer => outer

def NewSymbolTable : SymbolTable := .mk [] 0 none

def NewEnclosedSymbolTable (outer : SymbolTable) : SymbolTable := .mk [] 0 (some outer)

/-- `Define`, returning the new symbol together with the updated table (the
Go method mutates the receiver). The store is kept newest-first so that a
redefinition shadows the old entry. -/
def SymbolTable.Define : SymbolTable → String → Symbol × SymbolTable
  | .mk store numDefinitions outer, name =>
      let scope := match outer with
        | none => GlobalScope
        | some _ => LocalScope
      let symbol : Symbol := ⟨name, scope, numDefinitions⟩
      (symbol, .mk ((name, symbol) :: store) (numDefinitions + 1) outer)

/-- `Resolve`: current layer first, then outward through the parents. -/
def SymbolTable.Resolve : SymbolTable → String → Option Symbol
  | .mk store _ outer, name =>
      match store.find? (fun p => p.1 = name) with
      | some p => some p.2
      | none =>
          match outer with
          | some t => t.Resolve name
          | none => none

/-! ## compiler package (newest version: the compilation-scope compiler) -/

structure EmittedInstruction where
  Opcode : Nat
  Position : Nat
deriving DecidableEq, Repr

structure CompilationScope where
  instructions : List Nat
  lastInstruction : EmittedInstruction
  previousInstruction : EmittedInstruction
deriving DecidableEq, Repr

structure Compiler where
  constants : List Obj
  symbolTable : SymbolTable
  scopes : List CompilationScope
  scopeIndex : Nat

structure Bytecode where
  Instructions : List Nat
  Constants : List Obj

/-- `compiler.New()`. -/
def NewCompiler : Compiler :=
  { constants := []
    symbolTable := NewSymbolTable
    scopes := [⟨[], ⟨0, 0⟩, ⟨0, 0⟩⟩]
    scopeIndex := 0 }

/-- `currentInstructions`: `c.scopes[c.scopeIndex].instructions` (the index is
always in range for compiler-built states; Go would panic otherwise). -/
def currentInstructions (c : Compiler) : List Nat :=
  ((c.scopes.get? c.scopeIndex).getD ⟨[], ⟨0, 0⟩, ⟨0, 0⟩⟩).instructions

/-- Replace the scope at `c.scopeIndex` (Go mutates it in place). -/
def setCurrentScope (c : Compiler) (s : CompilationScope) : Compiler :=
  { c with scopes := c.scopes.set c.scopeIndex s }

def currentScope (c : Compiler) : CompilationScope :=
  (c.scopes.get? c.scopeIndex).getD ⟨[], ⟨0, 0⟩, ⟨0, 0⟩⟩

/-- `addConstant`: append and return the new constant's index. The object's
allocation id is its index in the pool, which keeps all allocations distinct. -/
def addConstant (c : Compiler) (obj : Obj) : Compiler × Nat :=
  ({ c with constants := c.constants ++ [obj] }, c.constants.length)

/-- `addInstruction`. -/
def addInstruction (c : Compiler) (ins : List Nat) : Compiler × Nat :=
  let posNewInstruction := (currentInstructions c).length
  (setCurrentScope c { currentScope c with instructions := currentInstructions c ++ ins },
   posNewInstruction)

/-- `setLastInstruction`. -/
def setLastInstruction (c : Compiler) (op : Nat) (pos : Nat) : Compiler :=
  let s := currentScope c
  setCurrentScope c { s with previousInstruction := s.lastInstruction,
                             lastInstruction := ⟨op, pos⟩ }

/-- `emit`. -/
def emit (c : Compiler) (op : Nat) (operands : List Nat) : Compiler × Nat :=
  let ins := Make op operands
  let r := addInstruction c ins
  (setLastInstruction r.1 op r.2, r.2)

/-- `lastInstructionIs`. -/
def lastInstructionIs (c : Compiler) (op : Nat) : Bool :=
  if (currentInstructions c).length = 0 then false
  else (currentScope c).lastInstruction.Opcode == op

/-- `removeLastPop`. -/
def removeLastPop (c : Compiler) : Compiler :=
  let s := currentScope c
  setCurrentScope c { s with instructions := s.instructions.take s.lastInstruction.Position,
                             lastInstruction := s.previousInstruction }

/-- The byte-by-byte overwrite loop of `replaceInstruction`. -/
def overwriteAt (l : List Nat) (pos : Nat) : List Nat → List Nat
  | [] => l
  | b :: bs => overwriteAt (l.set pos b) (pos + 1) bs

/-- `replaceInstruction`. -/
def replaceInstruction (c : Compiler) (pos : Nat) (newInstruction : List Nat) : Compiler :=
  let s := currentScope c
  setCurrentScope c { s with instructions := overwriteAt s.instructions pos newInstruction }

/-- `replaceLastPopWithReturn`. -/
def replaceLastPopWithReturn (c : Compiler) : Compiler :=
  let lastPos := (currentScope c).lastInstruction.Position
  let c1 := replaceInstruction c lastPos (Make OpReturnValue [])
  let s := currentScope c1
  setCurrentScope c1 { s with lastInstruction := { s.lastInstruction with Opcode := OpReturnValue } }

/-- `changeOperand`: recompose the instruction at `opPos` with the same opcode
and the new operand (Go reads the old opcode byte; the position is always in
range for compiler-built states). -/
def changeOperand (c : Compiler) (opPos operand : Nat) : Compiler :=
  let op := ((currentInstructions c).get? opPos).getD 0
  replaceInstruction c opPos (Make op [operand])

/-- `enterScope`. -/
def enterScope (c : Compiler) : Compiler :=
  { c with scopes := c.scopes ++ [⟨[], ⟨0, 0⟩, ⟨0, 0⟩⟩],
           scopeIndex := c.scopeIndex + 1,
           symbolTable := NewEnclosedSymbolTable c.symbolTable }

/-- `leaveScope`, returning the popped scope's instructions. (With balanced
enter/leave the outer table always exists; Go would store nil otherwise.) -/
def leaveScope (c : Compiler) : Compiler × List Nat :=
  let instructions := currentInstructions c
  ({ c with scopes := c.scopes.dropLast,
            scopeIndex := c.scopeIndex - 1,
            symbolTable := c.symbolTable.Outer.getD NewSymbolTable },
   instructions)

/-- The hash-literal key sort: `sort.Slice(keys, keys[i].String() < keys[j].String())`.
For the slice lengths arising here Go sorts by insertion sort, which keeps
elements whose keys compare equal in their input (map-iteration) order; a
comparison sort by `less` that keeps ties in input order is exactly
`mergeSort` with `le a b := ¬ less b a`. The sort is applied to the key/value
pairs directly, which is the same as sorting the keys and then looking each
key's value up in the map. -/
def pairKeyLe (i j : Expr × Expr) : Bool :=
  ! decide ((exprString j.1).data < (exprString i.1).data)

def sortHashPairs (pairs : List (Expr × Expr)) : List (Expr × Expr) :=
  pairs.mergeSort pairKeyLe

/-! ### `Compile`

`Compile` mutates the receiver and returns an `error`; here each case maps a
`Compiler` to the updated `Compiler` paired with the (optional) error message.
State changes made before an error is raised persist, exactly as for the Go
pointer receiver.

The Go recursion terminates structurally over the AST; because one case
recurses over a *sorted copy* of a node's pair list, the embedding bounds the
recursion with an explicit `fuel` counter instead, so that all definitions
compute by kernel reduction. Exhausted fuel reports a reserved error string
that no Go path produces; every use below supplies ample fuel. -/

def outOfFuelMsg : String := "embedding: recursion bound exhausted"

mutual

def compileStmtList : Nat → List Stmt → Compiler → Compiler × Option String
  | 0, _, c => (c, some outOfFuelMsg)
  | _ + 1, [], c => (c, none)
  | fuel + 1, s :: ss, c =>
      match compileStmt fuel s c with
      | (c1, some e) => (c1, some e)
      | (c1, none) => compileStmtList fuel ss c1

def compileBlock : Nat → Block → Compiler → Compiler × Option String
  | 0, _, c => (c, some outOfFuelMsg)
  | fuel + 1, .mk stmts, c => compileStmtList fuel stmts c

def compileStmt : Nat → Stmt → Compiler → Compiler × Option String
  | 0, _, c => (c, some outOfFuelMsg)
  | fuel + 1, .ExpressionStatement e, c =>
      match compileExpr fuel e c with
      | (c1, some err) => (c1, some err)
      | (c1, none) => ((emit c1 OpPop []).1, none)
  | fuel + 1, .LetStatement name v, c =>
      match compileExpr fuel v c with
      | (c1, some err) => (c1, some err)
      | (c1, none) =>
          let r := c1.symbolTable.Define name
          let c2 := { c1 with symbolTable := r.2 }
          if r.1.Scope = GlobalScope then ((emit c2 OpSetGlobal [r.1.Index]).1, none)
          else ((emit c2 OpSetLocal [r.1.Index]).1, none)
  | fuel + 1, .ReturnStatement v, c =>
      match compileExpr fuel v c with
      | (c1, some err) =>
          (c1, some ("comp: Compile(): (ReturnStatement) compilation failed. " ++ err))
      | (c1, none) => ((emit c1 OpReturnValue []).1, none)

def compileExpr : Nat → Expr → Compiler → Compiler × Option String
  | 0, _, c => (c, some outOfFuelMsg)
  | _ + 1, .Identifier name, c =>
      match c.symbolTable.Resolve name with
      | none => (c, some ("Compile(): undefined variable " ++ name))
      | some symbol =>
          if symbol.Scope = GlobalScope then ((emit c OpGetGlobal [symbol.Index]).1, none)
          else ((emit c OpGetLocal [symbol.Index]).1, none)
  | _ + 1, .IntegerLiteral _ v, c =>
      let r := addConstant c (Obj.integer c.constants.length v)
      ((emit r.1 OpConstant [r.2]).1, none)
  | _ + 1, .StringLiteral _ s, c =>
      let r := addConstant c (Obj.strObj c.constants.length s)
      ((emit r.1 OpConstant [r.2]).1, none)
  | _ + 1, .Boolean _ v, c =>
      if v then ((emit c OpTrue []).1, none) else ((emit c OpFalse []).1, none)
  | fuel + 1, .PrefixExpression op r, c =>
      match compileExpr fuel r c with
      | (c1, some err) => (c1, some err)
      | (c1, none) =>
          if op = "!" then ((emit c1 OpBang []).1, none)
          else if op = "-" then ((emit c1 OpMinus []).1, none)
          else (c1, some ("compiler: unknown prefix operator " ++ op))
  | fuel + 1, .InfixExpression op l r, c =>
      if op = "<" then
        -- compile right before left; NOTE the source returns nil (no error)
        -- when compiling either operand fails
        match compileExpr fuel r c with
        | (c1, some _) => (c1, none)
        | (c1, none) =>
            match compileExpr fuel l c1 with
            | (c2, some _) => (c2, none)
            | (c2, none) => ((emit c2 OpGreaterThan []).1, none)
      else
        match compileExpr fuel l c with
        | (c1, some err) => (c1, some err)
        | (c1, none) =>
            match compileExpr fuel r c1 with
            | (c2, some err) => (c2, some err)
            | (c2, none) =>
                if op = "+" then ((emit c2 OpAdd []).1, none)
                else if op = "-" then ((emit c2 OpSub []).1, none)
                else if op = "*" then ((emit c2 OpMul []).1, none)
                else if op = "/" then ((emit c2 OpDiv []).1, none)
                else if op = ">" then ((emit c2 OpGreaterThan []).1, none)
                else if op = "==" then ((emit c2 OpEqual []).1, none)
                else if op = "!=" then ((emit c2 OpNotEqual []).1, none)
                else (c2, some ("compiler: unknown infix operator " ++ op))
  | fuel + 1, .IfExpression cond cons alt, c =>
      match compileExpr fuel cond c with
      | (c1, some err) => (c1, some err)
      | (c1, none) =>
          let r1 := emit c1 OpJumpNotTruthy [9999]
          match compileBlock fuel cons r1.1 with
          | (c2, some err) => (c2, some err)
          | (c2, none) =>
              let c3 := if lastInstructionIs c2 OpPop then removeLastPop c2 else c2
              let r2 := emit c3 OpJump [9999]
              let afterConsequencePos := (currentInstructions r2.1).length
              let c4 := changeOperand r2.1 r1.2 afterConsequencePos
              match alt with
              | none =>
                  let c5 := (emit c4 OpNull []).1
                  let afterAlternativePos := (currentInstructions c5).length
                  (changeOperand c5 r2.2 afterAlternativePos, none)
              | some a =>
                  match compileBlock fuel a c4 with
                  | (c5, some err) => (c5, some err)
                  | (c5, none) =>
                      let c6 := if lastInstructionIs c5 OpPop then removeLastPop c5 else c5
                      let afterAlternativePos := (currentInstructions c6).length
                      (changeOperand c6 r2.2 afterAlternativePos, none)
  | fuel + 1, .ArrayLiteral elems, c =>
      match compileExprList fuel elems 0 c with
      | (c1, some err) => (c1, some err)
      | (c1, none) => ((emit c1 OpArray [elems.length]).1, none)
  | fuel + 1, .HashLiteral pairs, c =>
      match compilePairList fuel (sortHashPairs pairs) 0 c with
      | (c1, some err) => (c1, some err)
      | (c1, none) => ((emit c1 OpHash [pairs.length * 2]).1, none)
  | fuel + 1, .IndexExpression l i, c =>
      match compileExpr fuel l c with
      | (c1, some err) => (c1, some err)
      | (c1, none) =>
          match compileExpr fuel i c1 with
          | (c2, some err) => (c2, some err)
          | (c2, none) => ((emit c2 OpIndex []).1, none)
  | fuel + 1, .FunctionLiteral _ body, c =>
      match compileBlock fuel body (enterScope c) with
      | (c1, some err) =>
          (c1, some ("comp: Compile(): (FunctionLiteral) compilation failed. " ++ err))
      | (c1, none) =>
          let c2 := if lastInstructionIs c1 OpPop then replaceLastPopWithReturn c1 else c1
          let c3 := if lastInstructionIs c2 OpReturnValue then c2 else (emit c2 OpReturn []).1
          let r := leaveScope c3
          let ra := addConstant r.1 (Obj.compiledFunction r.1.constants.length r.2)
          ((emit ra.1 OpConstant [ra.2]).1, none)
  | fuel + 1, .CallExpression f _, c =>
      match compileExpr fuel f c with
      | (c1, some err) =>
          (c1, some ("comp: Compile(): (CallExpression) compilation failed. " ++ err))
      | (c1, none) => ((emit c1 OpCall []).1, none)

def compileExprList : Nat → List Expr → Nat → Compiler → Compiler × Option String
  | 0, _, _, c => (c, some outOfFuelMsg)
  | _ + 1, [], _, c => (c, none)
  | fuel + 1, e :: es, i, c =>
      match compileExpr fuel e c with
      | (c1, some err) =>
          (c1, some ("Compile(): array element " ++ toString i ++ " coudn't compile " ++ err))
      | (c1, none) => compileExprList fuel es (i + 1) c1

def compilePairList : Nat → List (Expr × Expr) → Nat → Compiler → Compiler × Option String
  | 0, _, _, c => (c, some outOfFuelMsg)
  | _ + 1, [], _, c => (c, none)
  | fuel + 1, (k, v) :: ps, i, c =>
      match compileExpr fuel k c with
      | (c1, some err) =>
          (c1, some ("comp: Compile(): (Hash) compilation of key " ++ toString i ++
                     " failed. " ++ err))
      | (c1, none) =>
          match compileExpr fuel v c1 with
          | (c2, some err) =>
              (c2, some ("comp: Compile(): (Hash) compilation of key " ++ toString i ++
                         " failed. " ++ err))
          | (c2, none) => compilePairList fuel ps (i + 1) c2

end


/-- `Compile` on a `*ast.Program` with a fresh compiler. -/
def CompileProgram (fuel : Nat) (stmts : List Stmt) : Compiler × Option String :=
  compileStmtList fuel stmts NewCompiler

/-- `Compiler.Bytecode()`. -/
def Compiler.Bytecode (c : Compiler) : Bytecode :=
  ⟨currentInstructions c, c.constants⟩

/-- The bytecode compiled from a program (meaningful when the error is `none`). -/
def bytecodeOf (fuel : Nat) (stmts : List Stmt) : Bytecode :=
  (CompileProgram fuel stmts).1.Bytecode

/-! ## vm package (newest version of `vm.go` and `frame.go`) -/

def StackSize : Nat := 2048
def GlobalSize : Nat := 65536
def MaxFrames : Nat := 1024

/-- `vm.Frame`: the executing `*object.CompiledFunction` (its pointer and its
instructions) and the frame's instruction pointer. There is no base-pointer
field in this version of `frame.go`. -/
structure Frame where
  fnRef : Nat
  fnInstructions : List Nat
  ip : Int

/-- `NewFrame`: `ip` starts at −1 so the loop's pre-increment lands on byte 0. -/
def NewFrame (fnRef : Nat) (ins : List Nat) : Frame := ⟨fnRef, ins, -1⟩

/-- `Frame.Instructions()`. -/
def Frame.Instructions (f : Frame) : List Nat := f.fnInstructions

/-- The VM state. `stack`, `globals` and `frames` are the fixed-capacity Go
slices; `none` entries are nil interface values / nil frame pointers, as left
by `make`. `nextRef` is the allocation counter giving fresh ids to objects the
VM creates at run time. -/
structure VMState where
  constants : List Obj
  stack : List (Option Obj)
  sp : Nat
  globals : List (Option Obj)
  frames : List (Option Frame)
  framesIndex : Nat
  nextRef : Nat

/-- The result of a Go call: a normal result, a returned `error`, or a panic
(host crash). `spin` is the artefact of the fuel-bounded run loop and is never
asserted by any theorem. -/
inductive Outcome (α : Type) where
  | ok (a : α)
  | err (msg : String)
  | panicked (msg : String)
  | spin

/-- The Go runtime's message for an out-of-range slice index (the detail
payload `[i]` with the offending index is elided). -/
def indexOutOfRange : String := "runtime error: index out of range"

/-- Read slice element `i` as Go does for an in-range index (`none` is a nil
entry, not a missing one; out-of-range reads are guarded at each call site). -/
def getAt (l : List (Option Obj)) (i : Nat) : Option Obj :=
  (l.get? i).getD none

/-- `vm.New`: main function wrapped from the bytecode, main frame at index 0,
`framesIndex` 1, empty stack and globals. -/
def newVM (bytecode : Bytecode) : VMState :=
  let mainFnRef := bytecode.Constants.length
  { constants := bytecode.Constants
    stack := List.replicate StackSize none
    sp := 0
    globals := List.replicate GlobalSize none
    frames := (List.replicate MaxFrames none).set 0 (some (NewFrame mainFnRef bytecode.Instructions))
    framesIndex := 1
    nextRef := bytecode.Constants.length + 1 }

/-- `vm.push`: checked against `StackSize`; the error is returned, not thrown. -/
def VM.push (st : VMState) (o : Option Obj) : Outcome VMState :=
  if StackSize ≤ st.sp then .err "vm: stack overflow"
  else .ok { st with stack := st.stack.set st.sp o, sp := st.sp + 1 }

/-- `vm.pop`: reads `stack[sp-1]` before decrementing, so on an empty stack Go
indexes `stack[-1]` and panics. -/
def VM.pop (st : VMState) : Outcome (Option Obj × VMState) :=
  if st.sp = 0 then .panicked indexOutOfRange
  else .ok (getAt st.stack (st.sp - 1), { st with sp := st.sp - 1 })

/-- `vm.currentFrame`: `frames[framesIndex-1]` (always present while running;
a nil entry would be a Go nil-dereference). -/
def currentFrame (st : VMState) : Frame :=
  ((st.frames.get? (st.framesIndex - 1)).getD none).getD ⟨0, [], -1⟩

/-- Store back the (mutated) current frame. -/
def setCurrentFrame (st : VMState) (f : Frame) : VMState :=
  { st with frames := st.frames.set (st.framesIndex - 1) (some f) }

/-- Advance the current frame's `ip` by `n` (operand skipping). -/
def advanceIp (st : VMState) (n : Int) : VMState :=
  setCurrentFrame st { currentFrame st with ip := (currentFrame st).ip + n }

/-- `vm.pushFrame`: `vm.frames[vm.framesIndex] = f; vm.framesIndex++` with no
capacity check of its own — at `framesIndex = len(frames)` the write is out of
bounds and Go panics. -/
def VM.pushFrame (st : VMState) (f : Frame) : Outcome VMState :=
  if st.framesIndex < st.frames.length then
    .ok { st with frames := st.frames.set st.framesIndex (some f),
                  framesIndex := st.framesIndex + 1 }
  else .panicked indexOutOfRange

/-- `vm.popFrame`. -/
def VM.popFrame (st : VMState) : VMState × Frame :=
  let st' := { st with framesIndex := st.framesIndex - 1 }
  (st', ((st'.frames.get? st'.framesIndex).getD none).getD ⟨0, [], -1⟩)

/-- `isTruthy`: Booleans by value, Null false, anything else — including a nil
interface, which matches no type case — true. -/
def isTruthy : Option Obj → Bool
  | some (.boolean b) => b
  | some .null => false
  | none => true
  | some _ => true

/-- `nativeBoolToBooleanObject`: the interned `True`/`False` singletons. -/
def nativeBoolToBooleanObject (input : Bool) : Obj := .boolean input

/-- int64 two's-complement wrap, making Go's overflow behaviour explicit. -/
def wrap64 (n : Int) : Int := (n + 2 ^ 63) % 2 ^ 64 - 2 ^ 63

/-- Allocate and push a fresh `*object.Integer`. -/
def pushFreshInteger (st : VMState) (v : Int) : Outcome VMState :=
  VM.push { st with nextRef := st.nextRef + 1 } (some (.integer st.nextRef v))

/-- `executeBinaryIntegerOperation`. Division is Go's truncated division with
no guard: a zero right operand is a runtime panic, never a returned error.
The final catch-all mirrors the Go `default:` branch, which pushes the zero
value of `var result int64`. -/
def executeBinaryIntegerOperation (st : VMState) (op : Nat) (left right : Obj) :
    Outcome VMState :=
  match left, right with
  | .integer _ leftValue, .integer _ rightValue =>
      if op = OpAdd then pushFreshInteger st (wrap64 (leftValue + rightValue))
      else if op = OpSub then pushFreshInteger st (wrap64 (leftValue - rightValue))
      else if op = OpMul then pushFreshInteger st (wrap64 (leftValue * rightValue))
      else if op = OpDiv then
        if rightValue = 0 then .panicked "runtime error: integer divide by zero"
        else pushFreshInteger st (wrap64 (Int.tdiv leftValue rightValue))
      else pushFreshInteger st 0
  | _, _ => .panicked "interface conversion" -- failed type assertion; callers prevent it

/-- `executeBinaryStringOperation`. -/
def executeBinaryStringOperation (st : VMState) (op : Nat) (left right : Obj) :
    Outcome VMState :=
  if op ≠ OpAdd then
    .err ("vm: executeBinaryOperation: unknown string operator: " ++ toString op)
  else
    match left, right with
    | .strObj _ leftValue, .strObj _ rightValue =>
        VM.push { st with nextRef := st.nextRef + 1 }
          (some (.strObj st.nextRef (leftValue ++ rightValue)))
    | _, _ => .panicked "interface conversion"

/-- `executeBinaryOperation`: pop right then left; dispatch on the two type
tags (a nil operand would be a nil-dereference at `left.Type()`). -/
def executeBinaryOperation (st : VMState) (op : Nat) : Outcome VMState :=
  match VM.pop st with
  | .ok (right, st1) =>
      (match VM.pop st1 with
       | .ok (left, st2) =>
           (match left, right with
            | some l, some r =>
                if l.typeTag = INTEGER_OBJ ∧ r.typeTag = INTEGER_OBJ then
                  executeBinaryIntegerOperation st2 op l r
                else if l.typeTag = STRING_OBJ ∧ r.typeTag = STRING_OBJ then
                  executeBinaryStringOperation st2 op l r
                else
                  .err ("unsupported types for binary operation: " ++ l.typeTag ++ " " ++
                        r.typeTag)
            | _, _ => .panicked "runtime error: invalid memory address or nil pointer dereference")
       | .err m => .err m
       | .panicked m => .panicked m
       | .spin => .spin)
  | .err m => .err m
  | .panicked m => .panicked m
  | .spin => .spin

/-- `executeIntegerComparison`: numeric comparison of the two int64 values. -/
def executeIntegerComparison (st : VMState) (op : Nat) (left right : Obj) :
    Outcome VMState :=
  match left, right with
  | .integer _ leftValue, .integer _ rightValue =>
      if op = OpEqual then
        VM.push st (some (nativeBoolToBooleanObject (decide (rightValue = leftValue))))
      else if op = OpNotEqual then
        VM.push st (some (nativeBoolToBooleanObject (decide (rightValue ≠ leftValue))))
      else if op = OpGreaterThan then
        VM.push st (some (nativeBoolToBooleanObject (decide (rightValue < leftValue))))
      else .err ("unknown operator: " ++ toString op)
  | _, _ => .panicked "interface conversion"

/-- `executeComparison`: pop right then left; nil operands are a returned
error (the `%v` payloads of the Go message are elided); two Integers compare
by value; every other pair by Go `==`/`!=`, i.e. identity. -/
def executeComparison (st : VMState) (op : Nat) : Outcome VMState :=
  match VM.pop st with
  | .ok (right, st1) =>
      (match VM.pop st1 with
       | .ok (left, st2) =>
           (match left, right with
            | some l, some r =>
                if l.typeTag = INTEGER_OBJ ∧ r.typeTag = INTEGER_OBJ then
                  executeIntegerComparison st2 op l r
                else if op = OpEqual then
                  VM.push st2 (some (nativeBoolToBooleanObject (identEq r l)))
                else if op = OpNotEqual then
                  VM.push st2 (some (nativeBoolToBooleanObject (! identEq r l)))
                else
                  .err ("unknown operator: " ++ toString op ++ " (" ++ l.typeTag ++ " " ++
                        r.typeTag ++ ")")
            | _, _ => .err "vm: executeComparison: cannot compare nil values")
       | .err m => .err m
       | .panicked m => .panicked m
       | .spin => .spin)
  | .err m => .err m
  | .panicked m => .panicked m
  | .spin => .spin

/-- `executeBangOperator`: pops and switches on identity with the singletons;
everything unrecognised — including a nil interface — yields `False`. -/
def executeBangOperator (st : VMState) : Outcome VMState :=
  match VM.pop st with
  | .ok (operand, st1) =>
      (match operand with
       | some (.boolean true) => VM.push st1 (some (.boolean false))
       | some (.boolean false) => VM.push st1 (some (.boolean true))
       | some .null => VM.push st1 (some (.boolean true))
       | _ => VM.push st1 (some (.boolean false)))
  | .err m => .err m
  | .panicked m => .panicked m
  | .spin => .spin

/-- `executeMinusOperator`. -/
def executeMinusOperator (st : VMState) : Outcome VMState :=
  match VM.pop st with
  | .ok (operand, st1) =>
      (match operand with
       | some o =>
           if o.typeTag ≠ INTEGER_OBJ then
             .err ("vm: unsupported type for negation: " ++ o.typeTag)
           else
             (match o with
              | .integer _ v => pushFreshInteger st1 (wrap64 (-v))
              | _ => .panicked "interface conversion")
       | none => .panicked "runtime error: invalid memory address or nil pointer dereference")
  | .err m => .err m
  | .panicked m => .panicked m
  | .spin => .spin

/-- `vm.buildArray`: copy `stack[startIndex:endIndex]` into a fresh Array. -/
def buildArray (st : VMState) (startIndex endIndex : Nat) : Obj × VMState :=
  let elements := (List.range (endIndex - startIndex)).map (fun i => getAt st.stack (startIndex + i))
  (.array st.nextRef elements, { st with nextRef := st.nextRef + 1 })

/-- Go map assignment `hashedPairs[key] = pair`: overwrite or append. -/
def hashInsert (pairs : List (HashKey × Option Obj × Option Obj)) (hk : HashKey)
    (p : Option Obj × Option Obj) : List (HashKey × Option Obj × Option Obj) :=
  if pairs.any (fun q => q.1 = hk) then
    pairs.map (fun q => if q.1 = hk then (hk, p) else q)
  else pairs ++ [(hk, p)]

/-- The key/value collection loop of `vm.buildHash` (`i += 2`). An unhashable
key is a returned error; a nil key would panic while the error message calls
`key.Type()`. -/
def buildHashLoop (st : VMState) (i endIndex : Nat)
    (acc : List (HashKey × Option Obj × Option Obj)) :
    Outcome (List (HashKey × Option Obj × Option Obj)) :=
  if i < endIndex then
    let key := getAt st.stack i
    let value := getAt st.stack (i + 1)
    match key with
    | none => .panicked "runtime error: invalid memory address or nil pointer dereference"
    | some k =>
        match hashKeyOf k with
        | none => .err ("vm: buildHash: unusable as hash key: " ++ k.typeTag)
        | some hk => buildHashLoop st (i + 2) endIndex (hashInsert acc hk (key, value))
  else .ok acc
termination_by endIndex - i
decreasing_by all_goals omega

/-- `vm.buildHash`. -/
def buildHash (st : VMState) (startIndex endIndex : Nat) : Outcome (Obj × VMState) :=
  match buildHashLoop st startIndex endIndex [] with
  | .ok pairs => .ok (.hash st.nextRef pairs, { st with nextRef := st.nextRef + 1 })
  | .err m => .err m
  | .panicked m => .panicked m
  | .spin => .spin

/-- `executeArrayIndex`: out-of-bounds (or negative) index pushes `Null`. -/
def executeArrayIndex (st : VMState) (array index : Obj) : Outcome VMState :=
  match array, index with
  | .array _ elements, .integer _ i =>
      let mx : Int := (elements.length : Int) - 1
      if i < 0 ∨ mx < i then VM.push st (some .null)
      else VM.push st (getAt elements i.toNat)
  | _, _ => .panicked "interface conversion"

/-- `executeHashIndex`. -/
def executeHashIndex (st : VMState) (hash index : Obj) : Outcome VMState :=
  match hash with
  | .hash _ pairs =>
      (match hashKeyOf index with
       | none => .err ("vm: executeHashIndex: " ++ index.typeTag ++ " is not a Hashable key")
       | some hk =>
           match pairs.find? (fun q => q.1 = hk) with
           | none => VM.push st (some .null)
           | some q => VM.push st q.2.2)
  | _ => .panicked "interface conversion"

/-- `executeIndexExpression`. -/
def executeIndexExpression (st : VMState) (left index : Option Obj) : Outcome VMState :=
  match left, index with
  | some l, some i =>
      if l.typeTag = ARRAY_OBJ ∧ i.typeTag = INTEGER_OBJ then executeArrayIndex st l i
      else if l.typeTag = HASH_OBJ then executeHashIndex st l i
      else .err ("vm: executeIndexExpression: index operator not supported: " ++ l.typeTag)
  | _, _ => .panicked "runtime error: invalid memory address or nil pointer dereference"

/-- Go `%v` of a `*code.Definition` (as printed by the unknown-opcode panic):
`<nil>` for a nil pointer, otherwise `&`-prefixed struct fields. -/
def goFmtDefinition : Option Definition → String
  | none => "<nil>"
  | some d =>
      "&\x7b" ++ d.Name ++ " [" ++ String.intercalate " " (d.OperandWidths.map toString) ++
        "]\x7d"

/-- The panic message of `Run`'s `default:` case. -/
def unknownOpcodeMsg (op : Nat) : String :=
  "VM: run(): Encountered unknown OpCode: " ++ goFmtDefinition (Lookup op)

/-- The body of `Run`'s `switch op`. `ins` and `ip` are the values fetched at
the top of the loop iteration, read back from the current frame. The cases
appear in source order; every opcode byte without a case — `OpCall`,
`OpReturnValue`, `OpReturn`, `OpGetLocal`, `OpSetLocal` and every byte ≥ 26 —
falls into `default:`, which panics. -/
def execOp (op : Nat) (st : VMState) : Outcome VMState :=
  let ins := (currentFrame st).Instructions
  let ip := (currentFrame st).ip.toNat
  if op = OpConstant then
    let constIndex := ReadUint16 (ins.drop (ip + 1))
    let st1 := advanceIp st 2
    match st1.constants.get? constIndex with
    | none => .panicked indexOutOfRange -- vm.constants[constIndex] out of range
    | some obj => VM.push st1 (some obj)
  else if op = OpAdd ∨ op = OpSub ∨ op = OpMul ∨ op = OpDiv then
    executeBinaryOperation st op
  else if op = OpTrue then VM.push st (some (.boolean true))
  else if op = OpFalse then VM.push st (some (.boolean false))
  else if op = OpEqual ∨ op = OpNotEqual ∨ op = OpGreaterThan then
    executeComparison st op
  else if op = OpBang then executeBangOperator st
  else if op = OpMinus then executeMinusOperator st
  else if op = OpPop then
    match VM.pop st with
    | .ok (_, st1) => .ok st1
    | .err m => .err m
    | .panicked m => .panicked m
    | .spin => .spin
  else if op = OpJump then
    let pos := ReadUint16 (ins.drop (ip + 1))
    .ok (setCurrentFrame st { currentFrame st with ip := (pos : Int) - 1 })
  else if op = OpJumpNotTruthy then
    let pos := ReadUint16 (ins.drop (ip + 1))
    let st1 := advanceIp st 2
    match VM.pop st1 with
    | .ok (condition, st2) =>
        if ! isTruthy condition then
          .ok (setCurrentFrame st2 { currentFrame st2 with ip := (pos : Int) - 1 })
        else .ok st2
    | .err m => .err m
    | .panicked m => .panicked m
    | .spin => .spin
  else if op = OpNull then VM.push st (some .null)
  else if op = OpSetGlobal then
    let globalIndex := ReadUint16 (ins.drop (ip + 1))
    let st1 := advanceIp st 2
    match VM.pop st1 with
    | .ok (v, st2) => .ok { st2 with globals := st2.globals.set globalIndex v }
    | .err m => .err m
    | .panicked m => .panicked m
    | .spin => .spin
  else if op = OpGetGlobal then
    let globalIndex := ReadUint16 (ins.drop (ip + 1))
    let st1 := advanceIp st 2
    VM.push st1 (getAt st1.globals globalIndex)
  else if op = OpArray then
    let numElements := ReadUint16 (ins.drop (ip + 1))
    let st1 := advanceIp st 2
    if st1.sp < numElements then .panicked indexOutOfRange -- negative slice bound
    else
      let r := buildArray st1 (st1.sp - numElements) st1.sp
      let st2 := { r.2 with sp := st1.sp - numElements }
      match VM.push st2 (some r.1) with
      | .err m => .err ("vm: Run(OpArray): failed to push array to stack. " ++ m)
      | out => out
  else if op = OpHash then
    let numElements := ReadUint16 (ins.drop (ip + 1))
    let st1 := advanceIp st 2
    if st1.sp < numElements then .panicked indexOutOfRange -- negative slice bound
    else
      match buildHash st1 (st1.sp - numElements) st1.sp with
      | .err m => .err ("vm: Run(): unable to build Hash. " ++ m)
      | .panicked m => .panicked m
      | .spin => .spin
      | .ok r =>
          let st2 := { r.2 with sp := st1.sp - numElements }
          match VM.push st2 (some r.1) with
          | .err m => .err ("vm: Run(): failed to push hash to stack. " ++ m)
          | out => out
  else if op = OpIndex then
    match VM.pop st with
    | .ok (index, st1) =>
        (match VM.pop st1 with
         | .ok (left, st2) => executeIndexExpression st2 left index
         | .err m => .err m
         | .panicked m => .panicked m
         | .spin => .spin)
    | .err m => .err m
    | .panicked m => .panicked m
    | .spin => .spin
  else
    .panicked (unknownOpcodeMsg op)

/-- The fetch/decode/execute loop of `vm.Run`, bounded by fuel (the Go loop
has no bound; every theorem below supplies enough fuel for its program, and
no theorem asserts the `spin` artefact). One iteration: check
`ip < len(instructions) - 1`, pre-increment `ip`, fetch the opcode byte,
execute. Normal exit returns the final state (`Run` returns a nil error). -/
def runLoop : Nat → VMState → Outcome VMState
  | 0, _ => .spin
  | fuel + 1, st =>
      let fr := currentFrame st
      if fr.ip < (fr.Instructions.length : Int) - 1 then
        let st1 := setCurrentFrame st { fr with ip := fr.ip + 1 }
        let ip := (currentFrame st1).ip
        if ip < 0 then .panicked indexOutOfRange
        else
          match (currentFrame st1).Instructions.get? ip.toNat with
          | none => .panicked indexOutOfRange
          | some op =>
              match execOp op st1 with
              | .ok st2 => runLoop fuel st2
              | .err m => .err m
              | .panicked m => .panicked m
              | .spin => .spin
      else .ok st

/-- `vm.Run` with a fuel bound. -/
def VM.Run (fuel : Nat) (st : VMState) : Outcome VMState := runLoop fuel st

/-! ## parser package (newest version, the parser with string/array support):
precedences and handler registration.

The token package's own declaration file is not under `src/`; the token kinds
are the ones the parser source names (plus `EOF`/`ILLEGAL` from the spec). -/

inductive TokenType where
  | IDENT | INT | STRING | BANG | MINUS | TRUE | FALSE | LPAREN | IF | FUNCTION
  | LBRACKET | LBRACE | PLUS | SLASH | ASTERISK | EQ | NOT_EQ | LT | GT
  | RPAREN | RBRACE | RBRACKET | COMMA | SEMICOLON | ASSIGN
  | LET | RETURN | ELSE | EOF | ILLEGAL
deriving DecidableEq, Repr

/-- The precedence ladder (`iota`, with the blank first slot). -/
def LOWEST : Nat := 1
def EQUALS : Nat := 2
def LESSGREATER : Nat := 3
def SUM : Nat := 4
def PRODUCT : Nat := 5
def PREFIXP : Nat := 6
def CALL : Nat := 7

/-- The parser's `precedences` map. Note: no entry for `LBRACKET`. -/
def precedences : List (TokenType × Nat) :=
  [ (.EQ, EQUALS), (.NOT_EQ, EQUALS), (.LT, LESSGREATER), (.GT, LESSGREATER),
    (.PLUS, SUM), (.MINUS, SUM), (.SLASH, PRODUCT), (.ASTERISK, PRODUCT),
    (.LPAREN, CALL) ]

/-- `peekPrecedence`/`curPrecedence`: map lookup defaulting to `LOWEST`. -/
def precedenceOf (t : TokenType) : Nat :=
  ((precedences.find? (fun p => p.1 = t)).map Prod.snd).getD LOWEST

/-- The token types for which `New` registers a prefix handler
(the source field spelled `p.` + `prefixParseFns`), in registration order:
`parseIdentifier`, `parseIntegerLiteral`, `parsePrefixExpression` (twice),
`parseBoolean` (twice), `parseGroupedExpression`, `parseIfExpression`,
`parseFunctionLiteral`, `parseStringLiteral`, `parseArrayLiteral`.
There is no registration for `LBRACE`. -/
def registeredPrefixTokens : List TokenType :=
  [.IDENT, .INT, .BANG, .MINUS, .TRUE, .FALSE, .LPAREN, .IF, .FUNCTION,
   .STRING, .LBRACKET]

/-- The token types for which `New` registers an infix handler
(the source field spelled `p.` + `infixParseFns`), in registration order:
`parseInfixExpression` for the eight operators and `parseCallExpression` for
`LPAREN`. There is no registration for `LBRACKET`. -/
def registeredInfixTokens : List TokenType :=
  [.PLUS, .MINUS, .SLASH, .ASTERISK, .EQ, .NOT_EQ, .LT, .GT, .LPAREN]

/-! ## Observers and concrete claim inputs (proof-side, not from the source) -/

/-- Observer: the int64 payload of an Integer object. -/
def Obj.intValue : Obj → Option Int
  | .integer _ v => some v
  | _ => none

/-- The program `if (true) { let a = 1; }`: an if-expression statement whose
branch body ends in a let statement. -/
def ifLetProgram : List Stmt :=
  [.ExpressionStatement (.IfExpression (.Boolean "true" true)
      (.mk [.LetStatement "a" (.IntegerLiteral "1" 1)]) none)]

/-- The program `a < 1` with `a` never defined. -/
def ltUndefinedProgram : List Stmt :=
  [.ExpressionStatement (.InfixExpression "<" (.Identifier "a") (.IntegerLiteral "1" 1))]

/-- The program `a` with `a` never defined. -/
def bareUndefinedProgram : List Stmt :=
  [.ExpressionStatement (.Identifier "a")]

/-- The program `1 / 0`. -/
def divByZeroProgram : List Stmt :=
  [.ExpressionStatement (.InfixExpression "/" (.IntegerLiteral "1" 1) (.IntegerLiteral "0" 0))]

/-- A hash-literal key node stringifying as `1`. In Go, two such nodes are two
distinct pointers and hence two distinct keys of one `map[Expression]Expression`. -/
def dupKey : Expr := .IntegerLiteral "1" 1

/-- `{1: 2, 1: 3}` with the map iterated in one order… -/
def hashProgramA : List Stmt :=
  [.ExpressionStatement (.HashLiteral [(dupKey, .IntegerLiteral "2" 2),
                                       (dupKey, .IntegerLiteral "3" 3)])]

/-- …and the same map iterated in the other order. -/
def hashProgramB : List Stmt :=
  [.ExpressionStatement (.HashLiteral [(dupKey, .IntegerLiteral "3" 3),
                                       (dupKey, .IntegerLiteral "2" 2)])]

/-- Bytecode whose single instruction byte (200) is no defined opcode. -/
def unknownOpcodeBytecode : Bytecode := ⟨[200], []⟩

/-- Bytecode that loads a CompiledFunction constant and executes `OpCall`. -/
def callBytecode : Bytecode :=
  ⟨[OpConstant, 0, 0, OpCall], [Obj.compiledFunction 0 [OpReturn]]⟩

/-- Bytecode that loads a CompiledFunction constant and executes
`OpReturnValue`. -/
def returnValueBytecode : Bytecode :=
  ⟨[OpConstant, 0, 0, OpReturnValue], [Obj.compiledFunction 0 [OpReturn]]⟩

/-- The comparison result C5 claims for `OpEqual`/`OpNotEqual`: numeric when
and only when both operands are Integers, identity of the operand objects for
every other pair. (Stated from the claim's words, to be compared with
`executeComparison`.) -/
def claimedComparisonResult (op : Nat) (l r : Obj) : Bool :=
  if l.typeTag = INTEGER_OBJ ∧ r.typeTag = INTEGER_OBJ then
    (if op = OpEqual then decide (r.intValue.getD 0 = l.intValue.getD 0)
     else decide (r.intValue.getD 0 ≠ l.intValue.getD 0))
  else
    (if op = OpEqual then identEq r l else ! identEq r l)

/-! ## Helper lemmas -/

/-- `pairKeyLe` is total. -/
theorem pairKeyLe_total (a b : Expr × Expr) : pairKeyLe a b || pairKeyLe b a := by
  simp only [pairKeyLe, Bool.or_eq_true, Bool.not_eq_true', decide_eq_false_iff_not]
  rcases lt_or_le (exprString b.1).data (exprString a.1).data with h | h
  · exact Or.inr (not_lt_of_lt h)
  · exact Or.inl (not_lt_of_le h)

/-- `pairKeyLe` is transitive. -/
theorem pairKeyLe_trans (a b c : Expr × Expr) :
    pairKeyLe a b → pairKeyLe b c → pairKeyLe a c := by
  simp only [pairKeyLe, Bool.not_eq_true', decide_eq_false_iff_not]
  intro h1 h2
  exact not_lt_of_le (le_trans (not_lt.mp h1) (not_lt.mp h2))

/-- Two sorted lists that are permutations of each other and whose key
strings are pairwise distinct are equal. -/
theorem sorted_perm_nodup_keys_eq :
    ∀ {u v : List (Expr × Expr)}, u.Perm v →
      u.Pairwise (fun a b => (exprString a.1).data ≤ (exprString b.1).data) →
      v.Pairwise (fun a b => (exprString a.1).data ≤ (exprString b.1).data) →
      (u.map (fun p => exprString p.1)).Nodup →
      u = v := by
  intro u
  induction u with
  | nil =>
      intro v hp _ _ _
      have := hp.symm.eq_nil
      simp [this]
  | cons a u' ih =>
      intro v hp hsu hsv hnd
      cases v with
      | nil => exact absurd hp.eq_nil (by simp)
      | cons b v' =>
          rw [List.map_cons, List.nodup_cons] at hnd
          obtain ⟨hau, hsu'⟩ := List.pairwise_cons.mp hsu
          obtain ⟨hbv, hsv'⟩ := List.pairwise_cons.mp hsv
          by_cases hab : a = b
          · subst hab
            have hp' := hp.cons_inv
            rw [ih hp' hsu' hsv' hnd.2]
          · exfalso
            have hav : a ∈ b :: v' := hp.subset (List.mem_cons_self a u')
            have hav' : a ∈ v' := by
              cases List.mem_cons.mp hav with
              | inl h => exact absurd h hab
              | inr h => exact h
            have hbu : b ∈ a :: u' := hp.symm.subset (List.mem_cons_self b v')
            have hbu' : b ∈ u' := by
              cases List.mem_cons.mp hbu with
              | inl h => exact absurd h.symm hab
              | inr h => exact h
            have h1 : (exprString a.1).data ≤ (exprString b.1).data := hau b hbu'
            have h2 : (exprString b.1).data ≤ (exprString a.1).data := hbv a hav'
            have heq : exprString a.1 = exprString b.1 :=
              String.ext (le_antisymm h1 h2)
            exact hnd.1 (heq ▸ List.mem_map_of_mem (fun p => exprString p.1) hbu')

/-- The hash-key sort depends only on the underlying map: two iteration
orders of pair lists with pairwise-distinct key strings sort identically. -/
theorem sortHashPairs_eq_of_perm {p1 p2 : List (Expr × Expr)}
    (hperm : p1.Perm p2) (hnd : (p1.map (fun p => exprString p.1)).Nodup) :
    sortHashPairs p1 = sortHashPairs p2 := by
  have hs1 : (sortHashPairs p1).Pairwise
      (fun a b => (exprString a.1).data ≤ (exprString b.1).data) :=
    (List.sorted_mergeSort pairKeyLe_trans pairKeyLe_total p1).imp
      (fun h => not_lt.mp (by simpa [pairKeyLe] using h))
  have hs2 : (sortHashPairs p2).Pairwise
      (fun a b => (exprString a.1).data ≤ (exprString b.1).data) :=
    (List.sorted_mergeSort pairKeyLe_trans pairKeyLe_total p2).imp
      (fun h => not_lt.mp (by simpa [pairKeyLe] using h))
  have hp : (sortHashPairs p1).Perm (sortHashPairs p2) :=
    (List.mergeSort_perm p1 _).trans (hperm.trans (List.mergeSort_perm p2 _).symm)
  have hnd' : ((sortHashPairs p1).map (fun p => exprString p.1)).Nodup :=
    (((List.mergeSort_perm p1 pairKeyLe).map (fun p => exprString p.1)).nodup_iff).mpr hnd
  exact sorted_perm_nodup_keys_eq hp hs1 hs2 hnd'

/-- Every entry of the `definitions` table declares either no operand, one
one-byte operand, or one two-byte operand. -/
theorem widths_of_lookup {op : Nat} {d : Definition} (h : Lookup op = some d) :
    d.OperandWidths = [] ∨ d.OperandWidths = [1] ∨ d.OperandWidths = [2] := by
  unfold Lookup at h
  cases hf : definitions.find? (fun p => p.1 = op) with
  | none => rw [hf] at h; simp at h
  | some p =>
      rw [hf] at h
      simp only [Option.map_some'] at h
      have hmem := List.mem_of_find?_eq_some hf
      have hall : ∀ q ∈ definitions,
          q.2.OperandWidths = [] ∨ q.2.OperandWidths = [1] ∨ q.2.OperandWidths = [2] := by
        decide
      cases h
      exact hall p hmem

/-! ## Claim theorems -/

/-- C1: the claim states that running any compiled well-formed program ends
with `sp = 0` and that no compiler-emitted `OpPop` ever executes on an empty
stack, also for an if-branch body ending in a let statement. The code violates
this: `if (true) { let a = 1; }` compiles without error, but its trailing
`OpPop` executes with `sp = 0`, so `pop` reads `stack[-1]` and the run aborts
with an index-out-of-range panic instead of finishing with `sp = 0`. -/
theorem ifLet_compiles_then_pop_underflows :
    (CompileProgram 100 ifLetProgram).2 = none
    ∧ currentInstructions (CompileProgram 100 ifLetProgram).1 =
        [OpTrue, OpJumpNotTruthy, 0, 13, OpConstant, 0, 0, OpSetGlobal, 0, 0,
         OpJump, 0, 14, OpNull, OpPop]
    ∧ VM.Run 30 (newVM (bytecodeOf 100 ifLetProgram)) = .panicked indexOutOfRange :=
  ⟨rfl, rfl, rfl⟩

/-- C2 counterexample: the claim states that executing `OpCall` pops the
callee and pushes a new Frame (ip −1, base pointer = sp). Instead, `OpCall`
has no dispatch case in `Run`: with a `CompiledFunction` on the stack the run
aborts in the `default:` case with an unknown-opcode panic — no frame is
pushed and control never enters the callee. -/
theorem opCall_execution_panics :
    VM.Run 10 (newVM callBytecode) = .panicked (unknownOpcodeMsg OpCall) := rfl

/-- C2 (amended): `NewFrame` does initialise `ip` to −1, but the VM defines no
execution behaviour for `OpCall` or `OpReturnValue`: both fall through to
`Run`'s `default:` case and panic, and `Frame` has no base-pointer field at
all. -/
theorem call_opcodes_undispatched :
    (∀ (r : Nat) (ins : List Nat), NewFrame r ins = ⟨r, ins, -1⟩)
    ∧ (∀ st : VMState, execOp OpCall st = .panicked (unknownOpcodeMsg OpCall))
    ∧ (∀ st : VMState, execOp OpReturnValue st = .panicked (unknownOpcodeMsg OpReturnValue))
    ∧ VM.Run 10 (newVM returnValueBytecode) = .panicked (unknownOpcodeMsg OpReturnValue) :=
  ⟨fun _ _ => rfl, fun _ => rfl, fun _ => rfl, rfl⟩

/-- C3: the claim states that `Compile` propagates an unresolved-identifier
error also when the identifier sits inside an operand of `<`. The code does
propagate it for a bare identifier, but the `<` case of `InfixExpression`
ends its error checks with `return nil`, so compiling `a < 1` (with `a`
undefined) swallows the error and reports success, leaving the partial
bytecode `[OpConstant 0, OpPop]`. -/
theorem lt_swallows_unresolved_identifier_error :
    (CompileProgram 100 bareUndefinedProgram).2 = some "Compile(): undefined variable a"
    ∧ (CompileProgram 100 ltUndefinedProgram).2 = none
    ∧ currentInstructions (CompileProgram 100 ltUndefinedProgram).1 =
        [OpConstant, 0, 0, OpPop] :=
  ⟨rfl, rfl, rfl⟩

/-- C4 counterexample: the claim states that an opcode byte with no defined
execution behaviour is returned from `Run` as a VMError rather than crashing
the host. Running the single undefined byte 200 instead makes `Run`'s
`default:` case panic (`code.Lookup` fails, so the message formats a nil
definition pointer); the error is never returned as a value. -/
theorem unknown_opcode_run_panics :
    VM.Run 10 (newVM unknownOpcodeBytecode) = .panicked (unknownOpcodeMsg 200)
    ∧ unknownOpcodeMsg 200 = "VM: run(): Encountered unknown OpCode: <nil>" :=
  ⟨rfl, rfl⟩

/-- C4 (amended): every opcode byte the `Run` switch does not dispatch —
`OpCall` (21) and everything above it — makes `Run` panic with the
unknown-opcode message; the condition is fatal for the host, not an error
value returned from `Run`. -/
theorem undispatched_opcode_panics :
    ∀ (op : Nat), 20 < op → ∀ (st : VMState),
      execOp op st = .panicked (unknownOpcodeMsg op) := by
  intro op hop st
  unfold execOp
  rw [if_neg (show ¬(op = OpConstant) from by simp only [OpConstant]; omega)]
  rw [if_neg (show ¬(op = OpAdd ∨ op = OpSub ∨ op = OpMul ∨ op = OpDiv) from by
        simp only [OpAdd, OpSub, OpMul, OpDiv]; omega)]
  rw [if_neg (show ¬(op = OpTrue) from by simp only [OpTrue]; omega)]
  rw [if_neg (show ¬(op = OpFalse) from by simp only [OpFalse]; omega)]
  rw [if_neg (show ¬(op = OpEqual ∨ op = OpNotEqual ∨ op = OpGreaterThan) from by
        simp only [OpEqual, OpNotEqual, OpGreaterThan]; omega)]
  rw [if_neg (show ¬(op = OpBang) from by simp only [OpBang]; omega)]
  rw [if_neg (show ¬(op = OpMinus) from by simp only [OpMinus]; omega)]
  rw [if_neg (show ¬(op = OpPop) from by simp only [OpPop]; omega)]
  rw [if_neg (show ¬(op = OpJump) from by simp only [OpJump]; omega)]
  rw [if_neg (show ¬(op = OpJumpNotTruthy) from by simp only [OpJumpNotTruthy]; omega)]
  rw [if_neg (show ¬(op = OpNull) from by simp only [OpNull]; omega)]
  rw [if_neg (show ¬(op = OpSetGlobal) from by simp only [OpSetGlobal]; omega)]
  rw [if_neg (show ¬(op = OpGetGlobal) from by simp only [OpGetGlobal]; omega)]
  rw [if_neg (show ¬(op = OpArray) from by simp only [OpArray]; omega)]
  rw [if_neg (show ¬(op = OpHash) from by simp only [OpHash]; omega)]
  rw [if_neg (show ¬(op = OpIndex) from by simp only [OpIndex]; omega)]

/-- Witness for `undispatched_opcode_panics` at the undefined byte 200. -/
theorem undispatched_opcode_panics_witness :
    20 < 200 ∧ execOp 200 (newVM unknownOpcodeBytecode) = .panicked (unknownOpcodeMsg 200) :=
  ⟨by decide, undispatched_opcode_panics 200 (by decide) (newVM unknownOpcodeBytecode)⟩

/-- C5: `OpEqual`/`OpNotEqual` compare by numeric value when and only when
both popped operands are Integers; every other operand pair is compared by
identity of the two objects (Go `==` on the interface values). -/
theorem comparison_integer_value_otherwise_identity :
    ∀ (op : Nat) (st st1 st2 : VMState) (l r : Obj),
      op = OpEqual ∨ op = OpNotEqual →
      VM.pop st = .ok (some r, st1) →
      VM.pop st1 = .ok (some l, st2) →
      executeComparison st op =
        VM.push st2 (some (nativeBoolToBooleanObject (claimedComparisonResult op l r))) := by
  intro op st st1 st2 l r hop h1 h2
  unfold executeComparison
  rw [h1]
  dsimp only
  rw [h2]
  dsimp only
  cases l <;> cases r <;> rcases hop with rfl | rfl <;>
    simp [executeIntegerComparison, claimedComparisonResult, Obj.typeTag, Obj.intValue,
          INTEGER_OBJ, BOOLEAN_OBJ, NULL_OBJ, STRING_OBJ, ARRAY_OBJ, HASH_OBJ,
          COMPILED_FUNCTION_OBJ, OpEqual, OpNotEqual, identEq, nativeBoolToBooleanObject]

/-- Witness for `comparison_integer_value_otherwise_identity`: two distinct
String objects with equal content (allocation ids 0 and 1) compare by
identity, so `OpEqual` pushes `False`. -/
theorem comparison_integer_value_otherwise_identity_witness :
    executeComparison
        ⟨[], [some (Obj.strObj 0 "a"), some (Obj.strObj 1 "a")], 2, [], [], 1, 2⟩ OpEqual =
      VM.push ⟨[], [some (Obj.strObj 0 "a"), some (Obj.strObj 1 "a")], 0, [], [], 1, 2⟩
        (some (nativeBoolToBooleanObject
          (claimedComparisonResult OpEqual (Obj.strObj 0 "a") (Obj.strObj 1 "a")))) :=
  comparison_integer_value_otherwise_identity OpEqual _ _ _ _ _ (Or.inl rfl) rfl rfl

unseal List.merge List.mergeSort in
/-- C7 counterexample: the claim states that compiling the same AST twice is
byte-identical even when distinct hash keys stringify identically. The hash
literal `{1: 2, 1: 3}` — one Go map with two distinct key nodes both printing
`1` — compiles to different constant pools under its two possible map
iteration orders, because the sort by stringified key leaves the tied keys in
iteration order. -/
theorem hash_literal_bytecode_order_dependent :
    (CompileProgram 100 hashProgramA).2 = none
    ∧ (CompileProgram 100 hashProgramB).2 = none
    ∧ (bytecodeOf 100 hashProgramA).Constants.map Obj.intValue =
        [some 1, some 2, some 1, some 3]
    ∧ (bytecodeOf 100 hashProgramB).Constants.map Obj.intValue =
        [some 1, some 3, some 1, some 2]
    ∧ bytecodeOf 100 hashProgramA ≠ bytecodeOf 100 hashProgramB :=
  ⟨rfl, rfl, rfl, rfl,
   fun h => absurd (congrArg (fun b => b.Constants.map Obj.intValue) h) (by decide)⟩

/-- C7 (amended): compiling a hash literal is independent of the Go map's
iteration order — hence byte-identical across compilations — whenever the
literal's keys have pairwise-distinct stringified forms; with stringified-key
ties the emitted order follows the iteration order (see the counterexample). -/
theorem hash_literal_compile_deterministic :
    ∀ (fuel : Nat) (pairs1 pairs2 : List (Expr × Expr)),
      pairs1.Perm pairs2 →
      (pairs1.map (fun p => exprString p.1)).Nodup →
      CompileProgram fuel [.ExpressionStatement (.HashLiteral pairs1)] =
        CompileProgram fuel [.ExpressionStatement (.HashLiteral pairs2)] := by
  intro fuel pairs1 pairs2 hperm hnd
  have hsort := sortHashPairs_eq_of_perm hperm hnd
  have hlen : pairs1.length = pairs2.length := hperm.length_eq
  unfold CompileProgram
  cases fuel with
  | zero => rfl
  | succ f =>
      simp only [compileStmtList]
      cases f with
      | zero => rfl
      | succ g =>
          simp only [compileStmt]
          cases g with
          | zero => rfl
          | succ k => simp only [compileExpr, hsort, hlen]

/-- Witness for `hash_literal_compile_deterministic`: the two iteration
orders of `{1: 2, 3: 4}` (distinct key strings) compile identically. -/
theorem hash_literal_compile_deterministic_witness :
    CompileProgram 100 [.ExpressionStatement (.HashLiteral
        [(Expr.IntegerLiteral "1" 1, Expr.IntegerLiteral "2" 2),
         (Expr.IntegerLiteral "3" 3, Expr.IntegerLiteral "4" 4)])] =
      CompileProgram 100 [.ExpressionStatement (.HashLiteral
        [(Expr.IntegerLiteral "3" 3, Expr.IntegerLiteral "4" 4),
         (Expr.IntegerLiteral "1" 1, Expr.IntegerLiteral "2" 2)])] :=
  hash_literal_compile_deterministic 100 _ _
    (List.Perm.swap _ _ _) (by decide)

/-- C8 counterexample: the claim states the parser registers a prefix handler
for `{` and an infix handler for `[`. Neither registration exists in the
newest parser, so hash literals and index expressions are not parseable. -/
theorem hash_index_handlers_not_registered :
    decide (TokenType.LBRACE ∈ registeredPrefixTokens) = false
    ∧ decide (TokenType.LBRACKET ∈ registeredInfixTokens) = false := by decide

/-- C8 (amended): the parser registers prefix handlers for identifier,
integer, string, `!`, `-`, `true`, `false`, `(`, `if`, `fn` and `[` (eleven
in all, none for `{`), and infix handlers for `+ - * / == != < >` and the
call `(` (nine in all, none for `[`); `(` sits at `CALL` precedence while `[`
has no precedence entry and defaults to `LOWEST`. -/
theorem parser_handler_registration :
    TokenType.LBRACE ∉ registeredPrefixTokens
    ∧ TokenType.LBRACKET ∉ registeredInfixTokens
    ∧ TokenType.LBRACKET ∈ registeredPrefixTokens
    ∧ TokenType.STRING ∈ registeredPrefixTokens
    ∧ TokenType.LPAREN ∈ registeredInfixTokens
    ∧ precedenceOf TokenType.LPAREN = CALL
    ∧ precedenceOf TokenType.LBRACKET = LOWEST
    ∧ registeredPrefixTokens.length = 11
    ∧ registeredInfixTokens.length = 9 := by decide

/-- C9 counterexample: the claim states every push onto the frame stack
(capacity 1024) is bounds-checked with overflow reported as a fatal error
from `Run`. `pushFrame` has no check: at `framesIndex = 1024` the write
`frames[framesIndex] = f` is out of bounds, which is a Go panic, not a
returned stack-overflow error. -/
theorem pushFrame_not_bounds_checked :
    VM.pushFrame
        ⟨[], List.replicate StackSize none, 0, [], List.replicate MaxFrames none,
         MaxFrames, 0⟩ ⟨0, [], -1⟩ = .panicked indexOutOfRange := by
  set_option maxRecDepth 100000 in rfl

/-- C9 (amended): pushes onto the value stack are bounds-checked — at
capacity the returned error is the stack overflow — and the globals vector
cannot be indexed out of range because `OpSetGlobal`/`OpGetGlobal` carry a
16-bit operand; the frame stack push, by contrast, is unchecked (see the
counterexample), though `Run` never dispatches a frame push. -/
theorem stack_push_checked_globals_in_range :
    (∀ (st : VMState) (o : Option Obj), StackSize ≤ st.sp →
        VM.push st o = .err "vm: stack overflow")
    ∧ (∀ bs : List Nat, ReadUint16 bs < GlobalSize) := by
  constructor
  · intro st o h
    unfold VM.push
    rw [if_pos h]
  · intro bs
    rcases bs with _ | ⟨hi, _ | ⟨lo, rest⟩⟩ <;> simp [ReadUint16, GlobalSize]
    omega

/-- Witness for `stack_push_checked_globals_in_range`: a push at `sp = 2048`
returns the stack-overflow error, and the largest encodable global index
65535 is within the globals capacity. -/
theorem stack_push_checked_globals_in_range_witness :
    VM.push ⟨[], [], StackSize, [], [], 1, 0⟩ none = .err "vm: stack overflow"
    ∧ ReadUint16 [255, 255] < GlobalSize :=
  ⟨stack_push_checked_globals_in_range.1 _ none (Nat.le_refl _),
   stack_push_checked_globals_in_range.2 _⟩

/-- C10: integer division applies Go division with no zero-divisor guard:
dividing by an Integer 0 panics the host (`integer divide by zero`) for every
dividend, and a program evaluating `1 / 0` makes `Run` abort with that panic
rather than return an error value. -/
theorem opDiv_zero_divisor_panics :
    (∀ (st : VMState) (r1 r2 : Nat) (lv : Int),
        executeBinaryIntegerOperation st OpDiv (.integer r1 lv) (.integer r2 0) =
          .panicked "runtime error: integer divide by zero")
    ∧ VM.Run 30 (newVM (bytecodeOf 100 divByZeroProgram)) =
        .panicked "runtime error: integer divide by zero"
    ∧ (∀ m : String, VM.Run 30 (newVM (bytecodeOf 100 divByZeroProgram)) ≠ .err m) := by
  refine ⟨?_, rfl, ?_⟩
  · intro st r1 r2 lv
    simp [executeBinaryIntegerOperation, OpAdd, OpSub, OpMul, OpDiv]
  · intro m h
    rw [show VM.Run 30 (newVM (bytecodeOf 100 divByZeroProgram)) =
          Outcome.panicked "runtime error: integer divide by zero" from rfl] at h
    exact Outcome.noConfusion h

/-- C6: for every opcode present in the definitions table and every operand
tuple fitting the opcode's declared widths, `ReadOperands def (Make op ops)[1:]`
returns exactly that operand tuple together with the total operand width; and
`Make OpConstant 65534` is the three bytes `[OpConstant, 0xFF, 0xFE]`. -/
theorem make_readOperands_roundtrip :
    (∀ (op : Nat) (d : Definition) (operands : List Nat),
        Lookup op = some d →
        operandsFit d.OperandWidths operands = true →
        ReadOperands d ((Make op operands).drop 1) = (operands, d.OperandWidths.sum))
    ∧ Make OpConstant [65534] = [OpConstant, 0xFF, 0xFE] := by
  constructor
  · intro op d operands hlk hfit
    rcases widths_of_lookup hlk with hw | hw | hw <;> rw [hw] at hfit ⊢
    · cases operands with
      | nil =>
          simp [Make, hlk, hw, writeOperands, ReadOperands, readOperandsLoop]
      | cons o os => simp [operandsFit] at hfit
    · cases operands with
      | nil => simp [operandsFit] at hfit
      | cons o os =>
          cases os with
          | cons o2 os2 => simp [operandsFit] at hfit
          | nil =>
              have ho : o < 256 := by
                simpa [operandsFit] using hfit
              simp only [Make, hlk, hw]
              norm_num
              simp [show List.replicate 2 (0 : Nat) = [0, 0] from rfl,
                    writeOperands, writeOperand, ReadOperands, readOperandsLoop, ReadUint8]
              rw [hw]
              simp [readOperandsLoop, ReadUint8]
              omega
    · cases operands with
      | nil => simp [operandsFit] at hfit
      | cons o os =>
          cases os with
          | cons o2 os2 => simp [operandsFit] at hfit
          | nil =>
              have ho : o < 65536 := by
                simpa [operandsFit] using hfit
              simp only [Make, hlk, hw]
              norm_num
              simp [show List.replicate 3 (0 : Nat) = [0, 0, 0] from rfl,
                    writeOperands, writeOperand, ReadOperands, readOperandsLoop, ReadUint16]
              rw [hw]
              simp [readOperandsLoop, ReadUint16]
              omega
  · rfl

/-- Witness for `make_readOperands_roundtrip`: the round-trip at
`OpConstant 65534`. -/
theorem make_readOperands_roundtrip_witness :
    ReadOperands ⟨"OpConstant", [2]⟩ ((Make OpConstant [65534]).drop 1) = ([65534], 2) :=
  make_readOperands_roundtrip.1 OpConstant ⟨"OpConstant", [2]⟩ [65534] (by decide) (by decide)

end Monkey
